import Mathlib

/-!
Shallow embedding of the gravitas-rs motion library (`src/friction.rs`,
`src/spring.rs`, `src/scroll.rs`, `src/pager.rs`) over the real numbers.

The Rust code computes in `f32`.  The embedding uses `ℝ`: arithmetic is exact,
and the places where `f32` produces a non-finite value (NaN or ±∞) on the
inputs relevant to the claims are represented with `Option ℝ` (`none` = not a
finite number).  `f32::EPSILON` and the library's `EPSILON = 0.001` become the
exact rational constants below.  Mutating methods become functions returning
the updated structure.
-/

noncomputable section
open scoped Classical

namespace Gravitas

/-- `std::f32::EPSILON`, the machine epsilon of `f32`, is `2⁻²³`. -/
def f32Epsilon : ℝ := 1 / 2 ^ 23

/-- `EPSILON` from `spring.rs`: the rest/equality tolerance `0.001`. -/
def EPSILON : ℝ := 1 / 1000

/-- `almost_equal` from `spring.rs`: `(a > b - epsilon) && (a < b + epsilon)`. -/
def almost_equal (a b epsilon : ℝ) : Prop := a > b - epsilon ∧ a < b + epsilon

/-- `almost_zero` from `spring.rs`. -/
def almost_zero (a epsilon : ℝ) : Prop := almost_equal a 0 epsilon

/-! ## Friction (`friction.rs`) -/

/-- The `Friction` struct: position, velocity, drag and its logarithm. -/
structure Friction where
  x : ℝ
  v : ℝ
  drag : ℝ
  ln_drag : ℝ

namespace Friction

/-- `Friction::new`: zero position and velocity, `ln_drag = drag.ln()`. -/
def new (drag : ℝ) : Friction := ⟨0, 0, drag, Real.log drag⟩

/-- `Friction::set`: reset the initial position and velocity. -/
def set (f : Friction) (x v : ℝ) : Friction := { f with x := x, v := v }

/-- `Friction::x` (trait `Simulation`): `x + v * drag.powf(t) / ln_drag - v / ln_drag`.
`drag.powf(t)` is the real power `drag ^ t`. -/
def xAt (f : Friction) (time : ℝ) : ℝ :=
  f.x + f.v * f.drag ^ time / f.ln_drag - f.v / f.ln_drag

/-- `Friction::dx` (trait `Simulation`): `v * drag.powf(t)`. -/
def dxAt (f : Friction) (time : ℝ) : ℝ := f.v * f.drag ^ time

/-- `Friction::is_done`: `dx(t).abs() < 1.0`. -/
def isDone (f : Friction) (time : ℝ) : Prop := |f.dxAt time| < 1

/-- `Friction::time_for_position`.  The source returns an `f32` that is NaN or
±∞ exactly when `v = 0`, `ln_drag = 0`, or the argument of the logarithm is
not positive; those non-finite results are modelled as `none`. -/
def time_for_position (f : Friction) (p : ℝ) : Option ℝ :=
  if |p - f.x| < f32Epsilon then some 0
  else
    let a := ((p - f.x) * f.ln_drag + f.v) / f.v
    if f.v = 0 ∨ f.ln_drag = 0 ∨ a ≤ 0 then none
    else some (Real.log a / f.ln_drag)

end Friction

/-! ## SpringSolution (`spring.rs`) -/

/-- The `SpringSolution` enum. -/
inductive SpringSolution
  | Overdamped (r1 r2 c1 c2 : ℝ)
  | CriticallyDamped (r c1 c2 : ℝ)
  | Underdamped (w r c1 c2 : ℝ)
  | Snapped

namespace SpringSolution

/-- `SpringSolution::solve`.  The source matches `cmk.partial_cmp(&0.0)`:
`Greater` is overdamped, `Less` is underdamped, anything else (exact equality)
is critically damped.  Note that the underdamped decay rate is written
`-(damping / 2.0 * mass)` in the source, which by precedence is
`-(damping / 2) * mass`, and the critically damped `c2` is
`velocity / (r * initial)`. -/
def solve (damping mass spring_constant initial velocity : ℝ) : SpringSolution :=
  let cmk := damping * damping - 4 * mass * spring_constant
  if 0 < cmk then
    let r1 := (-damping - Real.sqrt cmk) / (2 * mass)
    let r2 := (-damping + Real.sqrt cmk) / (2 * mass)
    let c2 := (velocity - r1 * initial) / (r2 - r1)
    let c1 := initial - c2
    Overdamped r1 r2 c1 c2
  else if cmk < 0 then
    let w := Real.sqrt (4 * mass * spring_constant - damping * damping) / (2 * mass)
    let r := -(damping / 2 * mass)
    let c1 := initial
    let c2 := (velocity - r * initial) / w
    Underdamped w r c1 c2
  else
    let r := -damping / (2 * mass)
    let c1 := initial
    let c2 := velocity / (r * initial)
    CriticallyDamped r c1 c2

/-- `SpringSolution::x`: the closed-form position of each regime
(`E.powf(a)` is `Real.exp a`). -/
def x : SpringSolution → ℝ → ℝ
  | Overdamped r1 r2 c1 c2, time => c1 * Real.exp (r1 * time) + c2 * Real.exp (r2 * time)
  | CriticallyDamped r c1 c2, time => (c1 + c2 * time) * Real.exp (r * time)
  | Underdamped w r c1 c2, time =>
      Real.exp (r * time) * (c1 * Real.cos (w * time) + c2 * Real.sin (w * time))
  | Snapped, _ => 0

/-- `SpringSolution::dx`: the closed-form velocity of each regime. -/
def dx : SpringSolution → ℝ → ℝ
  | Overdamped r1 r2 c1 c2, time =>
      c1 * r1 * Real.exp (r1 * time) + c2 * r2 * Real.exp (r2 * time)
  | CriticallyDamped r c1 c2, time =>
      r * (c1 + c2 * time) * Real.exp (r * time) + c2 * Real.exp (r * time)
  | Underdamped w r c1 c2, time =>
      Real.exp (r * time) *
          (c2 * w * Real.cos (w * time) - c1 * w * Real.sin (w * time)) +
        r * Real.exp (r * time) * (c2 * Real.sin (w * time) + c1 * Real.cos (w * time))
  | Snapped, _ => 0

end SpringSolution

/-! ## Spring (`spring.rs`) -/

/-- The `Spring` struct.  The Rust field `end` is a Lean keyword and is
rendered `end_` here. -/
structure Spring where
  mass : ℝ
  spring_constant : ℝ
  damping : ℝ
  end_ : ℝ
  solution : SpringSolution
  start_time : ℝ

namespace Spring

/-- `Spring::new`: starts out snapped to `0.0`. -/
def new (mass spring_constant damping : ℝ) : Spring :=
  ⟨mass, spring_constant, damping, 0, SpringSolution.Snapped, 0⟩

/-- `Spring::set`. -/
def set (s : Spring) (x velocity time : ℝ) : Spring :=
  if almost_equal x s.end_ EPSILON ∧ almost_zero velocity EPSILON then s
  else
    let pos := if time ≤ 0 then s.end_ else s.end_ + s.solution.x (time - s.start_time)
    let vel := if time ≤ 0 then velocity else velocity + s.solution.dx (time - s.start_time)
    if almost_zero (pos - x) EPSILON ∧ almost_zero vel EPSILON then s
    else
      { s with
        solution := SpringSolution.solve s.damping s.mass s.spring_constant (pos - x) vel
        end_ := x
        start_time := time }

/-- `Spring::snap`. -/
def snap (s : Spring) (x : ℝ) : Spring :=
  { s with end_ := x, start_time := 0, solution := SpringSolution.Snapped }

/-- `Spring::x` (trait `Simulation`). -/
def xAt (s : Spring) (time : ℝ) : ℝ := s.end_ + s.solution.x (time - s.start_time)

/-- `Spring::dx` (trait `Simulation`). -/
def dxAt (s : Spring) (time : ℝ) : ℝ := s.solution.dx (time - s.start_time)

/-- `Spring::is_done` (trait `Simulation`). -/
def isDone (s : Spring) (time : ℝ) : Prop :=
  almost_equal (s.xAt time) s.end_ EPSILON ∧ almost_zero (s.dxAt time) EPSILON

end Spring

/-! ## Scroll (`scroll.rs`) -/

/-- `!t.is_finite() || t < 0.0` on an `f32` time modelled as `Option ℝ`. -/
def badReturnTime : Option ℝ → Prop
  | none => True
  | some t => t < 0

/-- The `Scroll` struct.  `spring_time` is an `f32` that is NaN (`none`)
when the simulation never transitions into the spring. -/
structure Scroll where
  extent : ℝ
  friction : Friction
  spring : Spring
  spring_time : Option ℝ

namespace Scroll

/-- `Scroll::new`: drag `0.01`, spring `(1.0, 90.0, 20.0)`, `spring_time = NAN`. -/
def new (extent : ℝ) : Scroll :=
  ⟨extent, Friction.new (1 / 100), Spring.new 1 90 20, none⟩

/-- `Scroll::set`.  In the final two arms, when `time_for_position` is NaN
(`none`) the source still calls `spring.set` with that NaN time, leaving the
spring with a NaN-poisoned solution; since `in_spring` is then false for
every query time, that spring state is unobservable and the model keeps the
freshly snapped spring instead. -/
def set (s : Scroll) (x v : ℝ) : Scroll :=
  let friction := s.friction.set x v
  let time_to_zero := friction.time_for_position 0
  let time_to_extent := friction.time_for_position (-s.extent)
  if 0 < x ∧ badReturnTime time_to_zero then
    { s with friction := friction, spring_time := some 0,
             spring := (s.spring.snap x).set 0 v 0 }
  else if x < -s.extent ∧ badReturnTime time_to_extent then
    { s with friction := friction, spring_time := some 0,
             spring := (s.spring.snap x).set (-s.extent) v 0 }
  else if 0 ≤ v then
    match time_to_zero with
    | some t =>
        { s with friction := friction, spring_time := some t,
                 spring := (s.spring.snap 0).set 0 (friction.dxAt t) t }
    | none => { s with friction := friction, spring_time := none, spring := s.spring.snap 0 }
  else
    match time_to_extent with
    | some t =>
        { s with friction := friction, spring_time := some t,
                 spring := (s.spring.snap (-s.extent)).set (-s.extent) (friction.dxAt t) t }
    | none =>
        { s with friction := friction, spring_time := none,
                 spring := s.spring.snap (-s.extent) }

/-- `Scroll::in_spring`: `spring_time.is_finite() && time >= spring_time`. -/
def in_spring (s : Scroll) (time : ℝ) : Prop :=
  match s.spring_time with
  | none => False
  | some st => st ≤ time

/-- `Scroll::x` (trait `Simulation`). -/
def xAt (s : Scroll) (time : ℝ) : ℝ :=
  if s.in_spring time then s.spring.xAt time else s.friction.xAt time

/-- `Scroll::dx` (trait `Simulation`). -/
def dxAt (s : Scroll) (time : ℝ) : ℝ :=
  if s.in_spring time then s.spring.dxAt time else s.friction.dxAt time

/-- `Scroll::is_done` (trait `Simulation`). -/
def isDone (s : Scroll) (time : ℝ) : Prop :=
  if s.in_spring time then s.spring.isDone time else s.friction.isDone time

end Scroll

/-! ## Pager (`pager.rs`) -/

/-- The `SnapPoint` struct. -/
structure SnapPoint where
  value : ℝ
  snap : Bool

/-- The `SnapQuery` enum. -/
inductive SnapQuery
  | Between (a b : SnapPoint)
  | Beyond (p : SnapPoint)

/-- The `Pager` struct. -/
structure Pager where
  snap_points : List SnapPoint
  friction : Friction
  spring : Spring
  spring_time : Option ℝ

/-- One step of the fold in `Pager::query` over a snap point, carrying the
`(less_than, greater_than)` accumulator of the source's `for_each`. -/
def queryStep (x : ℝ) (acc : Option SnapPoint × Option SnapPoint) (snap : SnapPoint) :
    Option SnapPoint × Option SnapPoint :=
  if snap.value > x then
    (acc.1,
      match acc.2 with
      | none => some snap
      | some s => if s.value > snap.value then some snap else acc.2)
  else
    (match acc.1 with
     | none => some snap
     | some s => if snap.value > s.value then some snap else acc.1,
     acc.2)

/-- `t.is_finite() && t > 0.0` on an `f32` time modelled as `Option ℝ`:
keeps the time only when it is a positive finite value. -/
def posTime : Option ℝ → Option ℝ
  | none => none
  | some t => if 0 < t then some t else none

namespace Pager

/-- `Pager::new`: the snap points are sorted ascending by `value`
(`sort_by` with `partial_cmp` on the values); drag `0.01`, spring
`(1.0, 90.0, 20.0)`, `spring_time = NAN`. -/
def new (snap_points : List SnapPoint) : Pager :=
  ⟨snap_points.insertionSort (fun a b => a.value ≤ b.value),
   Friction.new (1 / 100), Spring.new 1 90 20, none⟩

/-- `Pager::query`: fold over the snap points searching for the largest value
`≤ x` and the smallest value `> x`; with no snap points at all, invent the
snapping extent `{value: 0.0, snap: true}`. -/
def query (p : Pager) (x : ℝ) : SnapQuery :=
  match p.snap_points.foldl (queryStep x) (none, none) with
  | (some less, some more) => SnapQuery.Between less more
  | (some extent, none) => SnapQuery.Beyond extent
  | (none, some extent) => SnapQuery.Beyond extent
  | (none, none) => SnapQuery.Beyond ⟨0, true⟩

/-- `Pager::set`.  The four match arms follow the source in order; the last
`Between` arm therefore only applies when not both points snap.  As in
`Scroll.set`, when the source computes a NaN transition time the spring it
configures with that NaN is unobservable and the model leaves it snapped. -/
def set (p : Pager) (x v : ℝ) : Pager :=
  let friction := p.friction.set x v
  match p.query x with
  | SnapQuery.Beyond ⟨value, false⟩ =>
      let time_to_extent := friction.time_for_position value
      match posTime time_to_extent with
      | some _ => { p with friction := friction, spring_time := none }
      | none =>
          { p with friction := friction, spring_time := some 0,
                   spring := (p.spring.snap x).set value v 0 }
  | SnapQuery.Beyond ⟨value, true⟩ =>
      { p with friction := friction, spring_time := some 0,
               spring := (p.spring.snap x).set value v 0 }
  | SnapQuery.Between ⟨a, true⟩ ⟨b, true⟩ =>
      let end_point := friction.xAt 10000
      let snap_target := if |a - end_point| < |b - end_point| then a else b
      { p with friction := friction, spring_time := some 0,
               spring := (p.spring.snap x).set snap_target v 0 }
  | SnapQuery.Between ⟨a, _⟩ ⟨b, _⟩ =>
      let time_to_a := friction.time_for_position a
      let time_to_b := friction.time_for_position b
      match posTime time_to_a with
      | some ta =>
          { p with friction := friction, spring_time := some ta,
                   spring := (p.spring.snap a).set a (friction.dxAt ta) ta }
      | none =>
          match posTime time_to_b with
          | some tb =>
              { p with friction := friction, spring_time := some tb,
                       spring := (p.spring.snap b).set b (friction.dxAt tb) tb }
          | none => { p with friction := friction, spring_time := none }

/-- `Pager::in_spring`. -/
def in_spring (p : Pager) (time : ℝ) : Prop :=
  match p.spring_time with
  | none => False
  | some st => st ≤ time

/-- `Pager::x` (trait `Simulation`). -/
def xAt (p : Pager) (time : ℝ) : ℝ :=
  if p.in_spring time then p.spring.xAt time else p.friction.xAt time

/-- `Pager::dx` (trait `Simulation`). -/
def dxAt (p : Pager) (time : ℝ) : ℝ :=
  if p.in_spring time then p.spring.dxAt time else p.friction.dxAt time

/-- `Pager::is_done` (trait `Simulation`). -/
def isDone (p : Pager) (time : ℝ) : Prop :=
  if p.in_spring time then p.spring.isDone time else p.friction.isDone time

/-- `Pager::jump_to`: capture the current position and velocity at `time`,
then spring from there towards `position` with the time base reset to `0`. -/
def jump_to (p : Pager) (position time : ℝ) : Pager :=
  let x := p.xAt time
  let dx := p.dxAt time
  { p with spring_time := some 0, spring := (p.spring.snap x).set position dx 0 }

end Pager

/-! ## Predicates used by the invariant claims -/

/-- The solution is the overdamped closed form or the degenerate snapped one:
the two shapes reachable inside `Scroll` and `Pager`. -/
def SpringSolution.overdampedOrSnapped : SpringSolution → Prop
  | SpringSolution.Overdamped _ _ _ _ => True
  | SpringSolution.Snapped => True
  | _ => False

/-- The solution came out of the overdamped branch of `solve`. -/
def SpringSolution.isOverdamped : SpringSolution → Prop
  | SpringSolution.Overdamped _ _ _ _ => True
  | _ => False

/-- Invariant of the spring owned by a `Scroll` or a `Pager`: the constructor
parameters `(mass, stiffness, damping) = (1, 90, 20)` and a solution that is
overdamped or snapped. -/
def springInv (s : Spring) : Prop :=
  s.mass = 1 ∧ s.spring_constant = 90 ∧ s.damping = 20 ∧ s.solution.overdampedOrSnapped

/-- Invariant of the `less_than` accumulator of `Pager::query`'s scan over
the points `seen` so far: `none` iff no seen point has value `≤ x`, otherwise
a seen point with the largest value `≤ x`. -/
def lowerInv (x : ℝ) (seen : List SnapPoint) : Option SnapPoint → Prop
  | none => ∀ q ∈ seen, x < q.value
  | some a => a ∈ seen ∧ a.value ≤ x ∧ ∀ q ∈ seen, q.value ≤ x → q.value ≤ a.value

/-- Invariant of the `greater_than` accumulator of `Pager::query`'s scan:
`none` iff no seen point has value `> x`, otherwise a seen point with the
smallest value `> x`. -/
def upperInv (x : ℝ) (seen : List SnapPoint) : Option SnapPoint → Prop
  | none => ∀ q ∈ seen, q.value ≤ x
  | some b => b ∈ seen ∧ x < b.value ∧ ∀ q ∈ seen, x < q.value → b.value ≤ q.value

instance : IsTotal SnapPoint (fun a b => a.value ≤ b.value) :=
  ⟨fun a b => le_total a.value b.value⟩

instance : IsTrans SnapPoint (fun a b => a.value ≤ b.value) :=
  ⟨fun _ _ _ hab hbc => le_trans hab hbc⟩

/-! # Theorems -/

/-! ## Claims about `SpringSolution::solve` -/

/-- Claim C1: the claim states that in all three regimes the solved solution
reproduces the initial conditions, `x(0) = positionOffset` and
`dx(0) = velocity`.  This fails in the critically damped regime: at
`(damping, mass, stiffness) = (2, 1, 1)` (discriminant `0`) with
`positionOffset = 1`, `velocity = 1`, the source's coefficient
`c2 = velocity / (r * initial)` yields `dx(0) = -2`, not `1` — not within the
library's tolerance (nor any).  The correct coefficient would be
`c2 = velocity - r * initial`. -/
theorem C1_critically_damped_initial_velocity_mismatch :
    (SpringSolution.solve 2 1 1 1 1).x 0 = 1 ∧
      (SpringSolution.solve 2 1 1 1 1).dx 0 = -2 ∧
      ¬ almost_equal ((SpringSolution.solve 2 1 1 1 1).dx 0) 1 EPSILON := by
  have hsolve : SpringSolution.solve 2 1 1 1 1 =
      SpringSolution.CriticallyDamped (-1) 1 (-1) := by
    rw [SpringSolution.solve]
    norm_num
  rw [hsolve]
  simp [SpringSolution.x, SpringSolution.dx, almost_equal, EPSILON]
  norm_num

/-- Claim C2: the claim states that the underdamped decay rate is
`r = -damping / (2 * mass)`.  The source computes `-(damping / 2.0 * mass)`,
i.e. `-(damping / 2) * mass`.  At `(damping, mass, stiffness) = (2, 2, 1)`
(discriminant `4 - 8 = -4 < 0`) with
`positionOffset = 0`, `velocity = 1`, the stored decay rate is `-2`, while
the claimed formula gives `-1/2`.  The angular frequency `w` and the
coefficients `c1`, `c2` do match the claim's formulas. -/
theorem C2_underdamped_decay_rate_mismatch :
    SpringSolution.solve 2 2 1 0 1 = SpringSolution.Underdamped (1 / 2) (-2) 0 2 ∧
      (-2 : ℝ) ≠ -2 / (2 * 2) := by
  constructor
  · rw [SpringSolution.solve]
    have h4 : Real.sqrt 4 = 2 := by
      rw [show (4 : ℝ) = 2 ^ 2 by norm_num, Real.sqrt_sq (by norm_num : (0:ℝ) ≤ 2)]
    norm_num [h4]
  · norm_num

/-! ## Helper lemmas -/

theorem almost_equal_self (a epsilon : ℝ) (h : 0 < epsilon) : almost_equal a a epsilon := by
  constructor <;> linarith

theorem almost_equal_of_almost_zero {a epsilon : ℝ} (h : almost_zero a epsilon) :
    almost_equal 0 a epsilon := by
  obtain ⟨h1, h2⟩ := h
  constructor <;> simp at h1 h2 <;> linarith

/-- In the overdamped regime the solved position at local time `0` is the
supplied offset, for any parameters. -/
theorem solve_x_zero (d m k x0 v : ℝ) (h : 0 < d * d - 4 * m * k) :
    (SpringSolution.solve d m k x0 v).x 0 = x0 := by
  rw [SpringSolution.solve, if_pos h]
  simp [SpringSolution.x]

/-- In the overdamped regime the solved velocity at local time `0` is the
supplied velocity, provided the mass is nonzero. -/
theorem solve_dx_zero (d m k x0 v : ℝ) (h : 0 < d * d - 4 * m * k) (hm : m ≠ 0) :
    (SpringSolution.solve d m k x0 v).dx 0 = v := by
  rw [SpringSolution.solve, if_pos h]
  have hs : Real.sqrt (d * d - 4 * m * k) ≠ 0 := ne_of_gt (Real.sqrt_pos.mpr h)
  have hne : (-d + Real.sqrt (d * d - 4 * m * k)) / (2 * m) -
      (-d - Real.sqrt (d * d - 4 * m * k)) / (2 * m) ≠ 0 := by
    rw [div_sub_div_same]
    have : -d + Real.sqrt (d * d - 4 * m * k) - (-d - Real.sqrt (d * d - 4 * m * k)) =
        2 * Real.sqrt (d * d - 4 * m * k) := by ring
    rw [this]
    exact div_ne_zero (by positivity) (by simpa using hm)
  simp only [SpringSolution.dx, mul_zero, Real.exp_zero, mul_one]
  field_simp
  ring

/-- When the friction state has a genuine (0 < drag < 1) drag with
`ln_drag = drag.ln()`, its position can be rewritten through `Real.exp`. -/
theorem Friction.xAt_exp (f : Friction) (hd : 0 < f.drag)
    (hl : f.ln_drag = Real.log f.drag) (t : ℝ) :
    f.xAt t = f.x + f.v * Real.exp (f.ln_drag * t) / f.ln_drag - f.v / f.ln_drag := by
  rw [Friction.xAt, Real.rpow_def_of_pos hd, hl]

/-- A finite strictly positive `time_for_position` is exact: friction is at
`p` at that time, and the velocity is nonzero. -/
theorem Friction.time_for_position_exact (f : Friction) (p T : ℝ) (hd : 0 < f.drag)
    (hl : f.ln_drag = Real.log f.drag) (hT : f.time_for_position p = some T)
    (hTpos : 0 < T) : f.xAt T = p ∧ f.v ≠ 0 := by
  rw [Friction.time_for_position] at hT
  by_cases heps : |p - f.x| < f32Epsilon
  · rw [if_pos heps] at hT
    exact absurd (Option.some_injective _ hT) (by intro h; rw [← h] at hTpos; exact lt_irrefl _ hTpos)
  · rw [if_neg heps] at hT
    simp only at hT
    by_cases hbad : f.v = 0 ∨ f.ln_drag = 0 ∨ ((p - f.x) * f.ln_drag + f.v) / f.v ≤ 0
    · rw [if_pos hbad] at hT; exact absurd hT (by simp)
    · rw [if_neg hbad] at hT
      push_neg at hbad
      obtain ⟨hv, hln, harg⟩ := hbad
      have hTval : T = Real.log (((p - f.x) * f.ln_drag + f.v) / f.v) / f.ln_drag :=
        (Option.some_injective _ hT).symm
      refine ⟨?_, hv⟩
      rw [Friction.xAt_exp f hd hl, hTval, mul_div_cancel₀ _ hln,
          Real.exp_log harg]
      field_simp
      ring

/-- The friction → spring handoff used by `Scroll::set` and `Pager::set`:
snap the spring to the target and re-target it there at time `T` with
friction's velocity at `T`.  At the transition time the spring agrees with
friction exactly in position and within `EPSILON` in velocity. -/
theorem handoff_continuity (f : Friction) (spr : Spring) (target T : ℝ)
    (hd : 0 < f.drag) (hl : f.ln_drag = Real.log f.drag)
    (hdisc : 0 < spr.damping * spr.damping - 4 * spr.mass * spr.spring_constant)
    (hm : spr.mass ≠ 0)
    (hT : f.time_for_position target = some T) (hTpos : 0 < T) :
    almost_equal (((spr.snap target).set target (f.dxAt T) T).xAt T) (f.xAt T) EPSILON ∧
      almost_equal (((spr.snap target).set target (f.dxAt T) T).dxAt T) (f.dxAt T) EPSILON := by
  obtain ⟨hx, -⟩ := f.time_for_position_exact target T hd hl hT hTpos
  have heps : (0:ℝ) < EPSILON := by rw [EPSILON]; norm_num
  rw [Spring.set]
  by_cases hz : almost_zero (f.dxAt T) EPSILON
  · rw [if_pos ⟨almost_equal_self _ _ heps, hz⟩]
    constructor
    · rw [hx]
      simp only [Spring.xAt, Spring.snap, SpringSolution.x]
      simpa using almost_equal_self target _ heps
    · simp only [Spring.dxAt, Spring.snap, SpringSolution.dx]
      exact almost_equal_of_almost_zero hz
  · rw [if_neg (by intro h; exact hz h.2)]
    simp only [Spring.snap, if_neg (not_le.mpr hTpos), SpringSolution.x, SpringSolution.dx,
      add_zero, sub_self]
    rw [if_neg (by intro h; exact hz (by simpa using h.2))]
    constructor
    · rw [hx]
      simp only [Spring.xAt, sub_self]
      rw [solve_x_zero _ _ _ _ _ hdisc]
      simpa using almost_equal_self target _ heps
    · simp only [Spring.dxAt, sub_self]
      rw [solve_dx_zero _ _ _ _ _ hdisc hm]
      exact almost_equal_self _ _ heps

/-- Branch analysis of `Scroll::set`: a strictly positive finite transition
time only arises from the last two branches, where the spring is snapped to
the extent being approached and re-targeted there at that time with
friction's predicted velocity. -/
theorem scroll_set_spec (s₀ : Scroll) (x v T : ℝ)
    (hst : (s₀.set x v).spring_time = some T) (hTpos : 0 < T) :
    (s₀.set x v).friction = s₀.friction.set x v ∧
      ∃ target,
        (s₀.set x v).spring =
          (s₀.spring.snap target).set target ((s₀.friction.set x v).dxAt T) T ∧
        (s₀.friction.set x v).time_for_position target = some T := by
  have hT0 : ¬ ((0:ℝ) = T) := by intro h; rw [← h] at hTpos; simp at hTpos
  by_cases h1 : 0 < x ∧ badReturnTime ((s₀.friction.set x v).time_for_position 0)
  · have hset : s₀.set x v =
        { s₀ with friction := s₀.friction.set x v, spring_time := some 0,
                  spring := (s₀.spring.snap x).set 0 v 0 } := by
      rw [Scroll.set, if_pos h1]
    rw [hset] at hst
    exact absurd (by simpa using hst) hT0
  · by_cases h2 : x < -s₀.extent ∧
        badReturnTime ((s₀.friction.set x v).time_for_position (-s₀.extent))
    · have hset : s₀.set x v =
          { s₀ with friction := s₀.friction.set x v, spring_time := some 0,
                    spring := (s₀.spring.snap x).set (-s₀.extent) v 0 } := by
        rw [Scroll.set, if_neg h1, if_pos h2]
      rw [hset] at hst
      exact absurd (by simpa using hst) hT0
    · by_cases h3 : 0 ≤ v
      · rcases hz : (s₀.friction.set x v).time_for_position 0 with - | t
        · have hset : s₀.set x v =
              { s₀ with friction := s₀.friction.set x v, spring_time := none,
                        spring := s₀.spring.snap 0 } := by
            rw [Scroll.set, if_neg h1, if_neg h2, if_pos h3, hz]
          rw [hset] at hst
          simp at hst
        · have hset : s₀.set x v =
              { s₀ with friction := s₀.friction.set x v, spring_time := some t,
                        spring := (s₀.spring.snap 0).set 0 ((s₀.friction.set x v).dxAt t) t } := by
            rw [Scroll.set, if_neg h1, if_neg h2, if_pos h3, hz]
          obtain rfl : t = T := by rw [hset] at hst; simpa using hst
          exact ⟨by rw [hset], 0, by rw [hset], hz⟩
      · rcases hz : (s₀.friction.set x v).time_for_position (-s₀.extent) with - | t
        · have hset : s₀.set x v =
              { s₀ with friction := s₀.friction.set x v, spring_time := none,
                        spring := s₀.spring.snap (-s₀.extent) } := by
            rw [Scroll.set, if_neg h1, if_neg h2, if_neg h3, hz]
          rw [hset] at hst
          simp at hst
        · have hset : s₀.set x v =
              { s₀ with friction := s₀.friction.set x v, spring_time := some t,
                        spring := (s₀.spring.snap (-s₀.extent)).set (-s₀.extent)
                          ((s₀.friction.set x v).dxAt t) t } := by
            rw [Scroll.set, if_neg h1, if_neg h2, if_neg h3, hz]
          obtain rfl : t = T := by rw [hset] at hst; simpa using hst
          exact ⟨by rw [hset], -s₀.extent, by rw [hset], hz⟩

/-- `posTime o = some t` means `o` was the finite strictly positive time `t`. -/
theorem posTime_some {o : Option ℝ} {t : ℝ} (h : posTime o = some t) :
    o = some t ∧ 0 < t := by
  rcases o with - | u
  · simp [posTime] at h
  · rw [posTime] at h
    by_cases hu : 0 < u
    · rw [if_pos hu] at h
      obtain rfl : u = t := Option.some_injective _ h
      exact ⟨rfl, hu⟩
    · rw [if_neg hu] at h
      exact absurd h (by simp)

/-- Branch analysis of `Pager::set`: a strictly positive finite transition
time only arises from the final `Between` arm, where the spring is snapped to
the neighbouring point being approached and re-targeted there at that time
with friction's predicted velocity. -/
theorem pager_set_spec (p₀ : Pager) (x v T : ℝ)
    (hst : (p₀.set x v).spring_time = some T) (hTpos : 0 < T) :
    (p₀.set x v).friction = p₀.friction.set x v ∧
      ∃ target,
        (p₀.set x v).spring =
          (p₀.spring.snap target).set target ((p₀.friction.set x v).dxAt T) T ∧
        (p₀.friction.set x v).time_for_position target = some T := by
  have hT0 : ¬ ((0:ℝ) = T) := by intro h; rw [← h] at hTpos; simp at hTpos
  rcases hq : p₀.query x with ⟨⟨av, asnap⟩, ⟨bv, bsnap⟩⟩ | ⟨⟨val, sn⟩⟩
  case Beyond =>
    rcases sn
    · rcases hpe : posTime ((p₀.friction.set x v).time_for_position val) with - | te
      · have hset : p₀.set x v =
            { p₀ with friction := p₀.friction.set x v, spring_time := some 0,
                      spring := (p₀.spring.snap x).set val v 0 } := by
          simp only [Pager.set, hq, hpe]
        rw [hset] at hst
        exact absurd (by simpa using hst) hT0
      · have hset : p₀.set x v =
            { p₀ with friction := p₀.friction.set x v, spring_time := none } := by
          simp only [Pager.set, hq, hpe]
        rw [hset] at hst
        simp at hst
    · have hset : p₀.set x v =
          { p₀ with friction := p₀.friction.set x v, spring_time := some 0,
                    spring := (p₀.spring.snap x).set val v 0 } := by
        simp only [Pager.set, hq]
      rw [hset] at hst
      exact absurd (by simpa using hst) hT0
  case Between =>
    rcases asnap <;> rcases bsnap
    case true.true =>
      have hset : (p₀.set x v).spring_time = some 0 := by
        simp only [Pager.set, hq]
      rw [hset] at hst
      exact absurd (by simpa using hst) hT0
    all_goals
      rcases hpa : posTime ((p₀.friction.set x v).time_for_position av) with - | ta
      case some =>
        have hset : p₀.set x v =
            { p₀ with friction := p₀.friction.set x v, spring_time := some ta,
                      spring := (p₀.spring.snap av).set av ((p₀.friction.set x v).dxAt ta) ta } := by
          simp only [Pager.set, hq, hpa]
        obtain rfl : ta = T := by rw [hset] at hst; simpa using hst
        exact ⟨by rw [hset], av, by rw [hset], (posTime_some hpa).1⟩
      case none =>
        rcases hpb : posTime ((p₀.friction.set x v).time_for_position bv) with - | tb
        case none =>
          have hset : p₀.set x v =
              { p₀ with friction := p₀.friction.set x v, spring_time := none } := by
            simp only [Pager.set, hq, hpa, hpb]
          rw [hset] at hst
          simp at hst
        case some =>
          have hset : p₀.set x v =
              { p₀ with friction := p₀.friction.set x v, spring_time := some tb,
                        spring := (p₀.spring.snap bv).set bv ((p₀.friction.set x v).dxAt tb) tb } := by
            simp only [Pager.set, hq, hpa, hpb]
          obtain rfl : tb = T := by rw [hset] at hst; simpa using hst
          exact ⟨by rw [hset], bv, by rw [hset], (posTime_some hpb).1⟩

theorem almost_equal_symm {a b epsilon : ℝ} (h : almost_equal a b epsilon) :
    almost_equal b a epsilon := by
  obtain ⟨h1, h2⟩ := h
  constructor <;> linarith

theorem almost_equal_of_sub {a b epsilon : ℝ} (h : almost_zero (a - b) epsilon) :
    almost_equal a b epsilon := by
  obtain ⟨h1, h2⟩ := h
  simp only [sub_zero, zero_sub, zero_add] at h1 h2
  constructor <;> linarith

/-- `snap` keeps the constructor parameters and installs the snapped solution. -/
theorem springInv_snap (s : Spring) (a : ℝ)
    (h : s.mass = 1 ∧ s.spring_constant = 90 ∧ s.damping = 20) :
    springInv (s.snap a) :=
  ⟨h.1, h.2.1, h.2.2, trivial⟩

/-- `Spring::set` either returns the state unchanged (one of the two no-op
checks fired) or replaces the solution wholesale with a freshly solved one,
keeping the constructor parameters. -/
theorem Spring.set_cases (s : Spring) (x velocity time : ℝ) :
    s.set x velocity time = s ∨
      ∃ pos vel, s.set x velocity time =
        { s with
          solution := SpringSolution.solve s.damping s.mass s.spring_constant (pos - x) vel
          end_ := x
          start_time := time } := by
  rw [Spring.set]
  split
  · exact Or.inl rfl
  · dsimp only
    split <;> split <;> first | exact Or.inl rfl | exact Or.inr ⟨_, _, rfl⟩

/-- After `snap` followed by `set`, the spring of a `Scroll`/`Pager` keeps its
constructor parameters and its solution is overdamped or snapped. -/
theorem springInv_snap_set (s : Spring) (a b w t : ℝ)
    (h : s.mass = 1 ∧ s.spring_constant = 90 ∧ s.damping = 20) :
    springInv ((s.snap a).set b w t) := by
  obtain ⟨hm, hk, hd⟩ := h
  rcases Spring.set_cases (s.snap a) b w t with he | ⟨pos, vel, he⟩
  · rw [he]
    exact springInv_snap s a ⟨hm, hk, hd⟩
  · rw [he]
    refine ⟨hm, hk, hd, ?_⟩
    show (SpringSolution.solve s.damping s.mass s.spring_constant _ _).overdampedOrSnapped
    rw [hd, hm, hk, SpringSolution.solve,
      if_pos (by norm_num : (0:ℝ) < 20 * 20 - 4 * 1 * 90)]
    trivial

/-- Claim C3: whenever `Scroll::set` (or `Pager::set`) produces a finite
strictly positive transition time `T`, the spring's position and velocity at
`T` agree with friction's position and velocity at `T` within the library's
`EPSILON` tolerance (the position agreement is in fact exact).  The
hypotheses state what the constructors guarantee: a drag in `(0, 1]`-range
positivity with `ln_drag = drag.ln()` (drag `0.01`), and a spring with a
positive discriminant and nonzero mass (`(1, 90, 20)`). -/
theorem C3_transition_continuity :
    (∀ (s₀ : Scroll) (x v T : ℝ),
        0 < s₀.friction.drag →
        s₀.friction.ln_drag = Real.log s₀.friction.drag →
        0 < s₀.spring.damping * s₀.spring.damping -
            4 * s₀.spring.mass * s₀.spring.spring_constant →
        s₀.spring.mass ≠ 0 →
        (s₀.set x v).spring_time = some T → 0 < T →
        almost_equal ((s₀.set x v).spring.xAt T) ((s₀.set x v).friction.xAt T) EPSILON ∧
          almost_equal ((s₀.set x v).spring.dxAt T) ((s₀.set x v).friction.dxAt T) EPSILON) ∧
      (∀ (p₀ : Pager) (x v T : ℝ),
        0 < p₀.friction.drag →
        p₀.friction.ln_drag = Real.log p₀.friction.drag →
        0 < p₀.spring.damping * p₀.spring.damping -
            4 * p₀.spring.mass * p₀.spring.spring_constant →
        p₀.spring.mass ≠ 0 →
        (p₀.set x v).spring_time = some T → 0 < T →
        almost_equal ((p₀.set x v).spring.xAt T) ((p₀.set x v).friction.xAt T) EPSILON ∧
          almost_equal ((p₀.set x v).spring.dxAt T) ((p₀.set x v).friction.dxAt T) EPSILON) := by
  constructor
  · intro s₀ x v T hd hl hdisc hm hst hTpos
    obtain ⟨hf, target, hspr, hT⟩ := scroll_set_spec s₀ x v T hst hTpos
    rw [hf, hspr]
    exact handoff_continuity (s₀.friction.set x v) s₀.spring target T hd hl hdisc hm hT hTpos
  · intro p₀ x v T hd hl hdisc hm hst hTpos
    obtain ⟨hf, target, hspr, hT⟩ := pager_set_spec p₀ x v T hst hTpos
    rw [hf, hspr]
    exact handoff_continuity (p₀.friction.set x v) p₀.spring target T hd hl hdisc hm hT hTpos

/-- Witness for C3: the scroll with extent `1000`, released at `-99` with
velocity `100 * ln 100`, transitions to the spring exactly at time `1`. -/
theorem C3_witness :
    almost_equal ((((Scroll.new 1000).set (-99) (100 * Real.log 100)).spring).xAt 1)
      ((((Scroll.new 1000).set (-99) (100 * Real.log 100)).friction).xAt 1) EPSILON ∧
      almost_equal ((((Scroll.new 1000).set (-99) (100 * Real.log 100)).spring).dxAt 1)
        ((((Scroll.new 1000).set (-99) (100 * Real.log 100)).friction).dxAt 1) EPSILON := by
  have hlog : (0:ℝ) < Real.log 100 := Real.log_pos (by norm_num)
  have hlinv : Real.log ((1:ℝ) / 100) = -Real.log 100 := by
    rw [one_div, Real.log_inv]
  have hlne : Real.log ((1:ℝ) / 100) ≠ 0 := by
    rw [hlinv]; exact neg_ne_zero.mpr (ne_of_gt hlog)
  have hvne : (100:ℝ) * Real.log 100 ≠ 0 := ne_of_gt (mul_pos (by norm_num) hlog)
  have htime : ((Scroll.new 1000).friction.set (-99) (100 * Real.log 100)).time_for_position 0 =
      some 1 := by
    rw [show (Scroll.new 1000).friction.set (-99) (100 * Real.log 100) =
      (⟨-99, 100 * Real.log 100, 1 / 100, Real.log (1 / 100)⟩ : Friction) from rfl]
    rw [Friction.time_for_position]
    dsimp only
    have harg : ((0 - (-99:ℝ)) * Real.log (1 / 100) + 100 * Real.log 100) /
        (100 * Real.log 100) = 1 / 100 := by
      rw [hlinv, show (0 - (-99:ℝ)) * -Real.log 100 + 100 * Real.log 100 = Real.log 100 by ring]
      rw [div_eq_div_iff hvne (by norm_num : (100:ℝ) ≠ 0)]
      ring
    rw [if_neg (by rw [show (0:ℝ) - (-99) = 99 by norm_num]; norm_num [f32Epsilon]), harg]
    rw [if_neg (by push_neg; exact ⟨hvne, hlne, by norm_num⟩)]
    rw [div_self hlne]
  have hst : ((Scroll.new 1000).set (-99) (100 * Real.log 100)).spring_time = some 1 := by
    rw [Scroll.set]
    rw [if_neg (by rintro ⟨h, -⟩; norm_num at h)]
    rw [if_neg (by rintro ⟨h, -⟩; revert h; norm_num [Scroll.new])]
    rw [if_pos (mul_pos (by norm_num : (0:ℝ) < 100) hlog).le, htime]
  exact C3_transition_continuity.1 (Scroll.new 1000) (-99) (100 * Real.log 100) 1
    (by norm_num [Scroll.new, Friction.new]) rfl
    (by norm_num [Scroll.new, Spring.new]) (by norm_num [Scroll.new, Spring.new])
    hst (by norm_num)

/-- The scenario of claim C4: `Scroll::new(1000)` then `set(0, 500)`.  The
start position `0` equals the target bound `0` within `f32::EPSILON`, so
`time_for_position(0)` returns `0` and the transition time is `0`, not NaN. -/
theorem scrollC4_spring_time : ((Scroll.new 1000).set 0 500).spring_time = some 0 := by
  have htime : ((Scroll.new 1000).friction.set 0 500).time_for_position 0 = some 0 := by
    have hcond : |(0:ℝ) - ((Scroll.new 1000).friction.set 0 500).x| < f32Epsilon := by
      norm_num [Scroll.new, Friction.new, Friction.set, f32Epsilon]
    rw [Friction.time_for_position, if_pos hcond]
  rw [Scroll.set]
  rw [if_neg (by rintro ⟨h, -⟩; norm_num at h)]
  rw [if_neg (by rintro ⟨h, -⟩; revert h; norm_num [Scroll.new])]
  rw [if_pos (by norm_num : (0:ℝ) ≤ 500), htime]

/-- Counterexample to claim C4: the claim says the transition time is NaN
(never transitions); the code computes the finite transition time `0`. -/
theorem C4_counterexample :
    ((Scroll.new 1000).set 0 500).spring_time = some 0 ∧
      some (0:ℝ) ≠ (none : Option ℝ) :=
  ⟨scrollC4_spring_time, by simp⟩

/-- Claim C4 amended: after `set(0, 500)` on a scroll with extent `1000` the
transition time is `0`, and every query at a time `t ≥ 0` delegates to the
spring (not to friction). -/
theorem C4_amended :
    ((Scroll.new 1000).set 0 500).spring_time = some 0 ∧
      ∀ t : ℝ, 0 ≤ t →
        ((Scroll.new 1000).set 0 500).xAt t = ((Scroll.new 1000).set 0 500).spring.xAt t ∧
          ((Scroll.new 1000).set 0 500).dxAt t = ((Scroll.new 1000).set 0 500).spring.dxAt t ∧
          (((Scroll.new 1000).set 0 500).isDone t ↔
            ((Scroll.new 1000).set 0 500).spring.isDone t) := by
  refine ⟨scrollC4_spring_time, fun t ht => ?_⟩
  have hin : ((Scroll.new 1000).set 0 500).in_spring t := by
    rw [Scroll.in_spring, scrollC4_spring_time]
    exact ht
  exact ⟨by rw [Scroll.xAt, if_pos hin], by rw [Scroll.dxAt, if_pos hin],
    by rw [Scroll.isDone, if_pos hin]⟩

/-- Witness for the amended C4 at query time `1`. -/
theorem C4_witness :
    ((Scroll.new 1000).set 0 500).xAt 1 = ((Scroll.new 1000).set 0 500).spring.xAt 1 :=
  (C4_amended.2 1 (by norm_num)).1

/-- Claim C7: after `snap(x)`, for every time `t ≥ 0` the spring reports
position `x`, velocity `0`, and is done. -/
theorem C7_snapped_rest (s : Spring) (x t : ℝ) (_ht : 0 ≤ t) :
    (s.snap x).xAt t = x ∧ (s.snap x).dxAt t = 0 ∧ (s.snap x).isDone t := by
  have h1 : (s.snap x).xAt t = x := by
    rw [Spring.xAt]
    simp [Spring.snap, SpringSolution.x]
  have h2 : (s.snap x).dxAt t = 0 := by
    rw [Spring.dxAt]
    simp [Spring.snap, SpringSolution.dx]
  refine ⟨h1, h2, ?_⟩
  rw [Spring.isDone, h1, h2]
  exact ⟨almost_equal_self x _ (by norm_num [EPSILON]),
    almost_equal_self 0 _ (by norm_num [EPSILON])⟩

/-- Witness for C7 at a spring with the composite parameters, `x = 5`, `t = 2`. -/
theorem C7_witness :
    ((Spring.new 1 90 20).snap 5).xAt 2 = 5 ∧ ((Spring.new 1 90 20).snap 5).dxAt 2 = 0 ∧
      ((Spring.new 1 90 20).snap 5).isDone 2 :=
  C7_snapped_rest (Spring.new 1 90 20) 5 2 (by norm_num)

/-- Claim C8: a pager built from an empty snap-point list classifies every
position as beyond the synthesized snapping fallback point at `0.0`. -/
theorem C8_empty_snap_points (x : ℝ) :
    (Pager.new []).query x = SnapQuery.Beyond ⟨0, true⟩ := rfl

/-- Claim C9: `Scroll` and `Pager` build their spring with
`(mass, stiffness, damping) = (1, 90, 20)`, whose discriminant `40` is
positive, so `SpringSolution::solve` invoked with those parameters always
takes the overdamped branch; `set` and `jump_to` preserve this, so the
critically damped branch (with its division by `r * positionOffset`) is
unreachable through the composite motions. -/
theorem C9_composites_overdamped :
    (∀ extent : ℝ, springInv (Scroll.new extent).spring) ∧
      (∀ pts : List SnapPoint, springInv (Pager.new pts).spring) ∧
      (0:ℝ) < 20 * 20 - 4 * 1 * 90 ∧
      (∀ x0 v : ℝ, (SpringSolution.solve 20 1 90 x0 v).isOverdamped) ∧
      (∀ (s : Scroll) (x v : ℝ), springInv s.spring → springInv (s.set x v).spring) ∧
      (∀ (p : Pager) (x v : ℝ), springInv p.spring → springInv (p.set x v).spring) ∧
      (∀ (p : Pager) (pos t : ℝ), springInv p.spring → springInv (p.jump_to pos t).spring) := by
  refine ⟨?_, ?_, by norm_num, ?_, ?_, ?_, ?_⟩
  · exact fun extent => ⟨rfl, rfl, rfl, trivial⟩
  · exact fun pts => ⟨rfl, rfl, rfl, trivial⟩
  · intro x0 v
    rw [SpringSolution.solve, if_pos (by norm_num : (0:ℝ) < 20 * 20 - 4 * 1 * 90)]
    trivial
  · intro s x v hinv
    rw [Scroll.set]
    repeat' split
    all_goals
      first
      | exact springInv_snap_set s.spring _ _ _ _ ⟨hinv.1, hinv.2.1, hinv.2.2.1⟩
      | exact springInv_snap s.spring _ ⟨hinv.1, hinv.2.1, hinv.2.2.1⟩
  · intro p x v hinv
    rw [Pager.set]
    dsimp only
    repeat' split
    all_goals
      first
      | exact springInv_snap_set p.spring _ _ _ _ ⟨hinv.1, hinv.2.1, hinv.2.2.1⟩
      | exact hinv
  · intro p pos t hinv
    exact springInv_snap_set p.spring _ _ _ _ ⟨hinv.1, hinv.2.1, hinv.2.2.1⟩

/-- Witness for C9: the invariant holds concretely after a `set`. -/
theorem C9_witness : springInv ((Scroll.new 1000).set 2 3).spring :=
  C9_composites_overdamped.2.2.2.2.1 (Scroll.new 1000) 2 3 (C9_composites_overdamped.1 1000)

/-- Snapping a spring to `x0` and immediately re-targeting it to `pos` with
velocity `dx0` at time `0` starts the new trajectory at `x0` (exactly) with
velocity `dx0` (within `EPSILON`), anchored within `EPSILON` of `pos`. -/
theorem snap_set_zero (spr : Spring) (x0 pos dx0 : ℝ)
    (hdisc : 0 < spr.damping * spr.damping - 4 * spr.mass * spr.spring_constant)
    (hm : spr.mass ≠ 0) :
    ((spr.snap x0).set pos dx0 0).xAt 0 = x0 ∧
      almost_equal (((spr.snap x0).set pos dx0 0).dxAt 0) dx0 EPSILON ∧
      almost_equal ((spr.snap x0).set pos dx0 0).end_ pos EPSILON := by
  have heps : (0:ℝ) < EPSILON := by rw [EPSILON]; norm_num
  have hxa : (spr.snap x0).xAt 0 = x0 := by
    rw [Spring.xAt]
    simp [Spring.snap, SpringSolution.x]
  have hdxa : (spr.snap x0).dxAt 0 = 0 := by
    rw [Spring.dxAt]
    simp [Spring.snap, SpringSolution.dx]
  rw [Spring.set]
  by_cases h1 : almost_equal pos (spr.snap x0).end_ EPSILON ∧ almost_zero dx0 EPSILON
  · rw [if_pos h1]
    refine ⟨hxa, ?_, ?_⟩
    · rw [hdxa]
      exact almost_equal_of_almost_zero h1.2
    · exact almost_equal_symm h1.1
  · rw [if_neg h1]
    dsimp only
    rw [if_pos (le_refl (0:ℝ)), if_pos (le_refl (0:ℝ))]
    by_cases h2 : almost_zero ((spr.snap x0).end_ - pos) EPSILON ∧ almost_zero dx0 EPSILON
    · rw [if_pos h2]
      refine ⟨hxa, ?_, ?_⟩
      · rw [hdxa]
        exact almost_equal_of_almost_zero h2.2
      · exact almost_equal_of_sub h2.1
    · rw [if_neg h2]
      refine ⟨?_, ?_, ?_⟩
      · show pos + (SpringSolution.solve spr.damping spr.mass spr.spring_constant
            ((spr.snap x0).end_ - pos) dx0).x (0 - 0) = x0
        rw [show (0:ℝ) - 0 = 0 by ring, solve_x_zero _ _ _ _ _ hdisc]
        show pos + (x0 - pos) = x0
        ring
      · show almost_equal ((SpringSolution.solve spr.damping spr.mass spr.spring_constant
            ((spr.snap x0).end_ - pos) dx0).dx (0 - 0)) dx0 EPSILON
        rw [show (0:ℝ) - 0 = 0 by ring, solve_dx_zero _ _ _ _ _ hdisc hm]
        exact almost_equal_self _ _ heps
      · exact almost_equal_self _ _ heps

/-- Claim C5: `Pager::jump_to(pos, T)` makes the motion immediately
spring-driven (transition time `0`, all queries at `t ≥ 0` go to the spring),
and the new spring trajectory starts (at its reset local time origin `0`)
from the pre-call position `x(T)` exactly and the pre-call velocity `dx(T)`
within `EPSILON`, anchored within `EPSILON` of `pos`.  The hypotheses record
the constructor's spring parameters `(1, 90, 20)`. -/
theorem C5_jump_to (P : Pager) (pos T : ℝ)
    (hm : P.spring.mass = 1) (hk : P.spring.spring_constant = 90)
    (hd : P.spring.damping = 20) :
    (P.jump_to pos T).spring_time = some 0 ∧
      (∀ t : ℝ, 0 ≤ t →
        (P.jump_to pos T).xAt t = (P.jump_to pos T).spring.xAt t ∧
          (P.jump_to pos T).dxAt t = (P.jump_to pos T).spring.dxAt t) ∧
      (P.jump_to pos T).spring.xAt 0 = P.xAt T ∧
      almost_equal ((P.jump_to pos T).spring.dxAt 0) (P.dxAt T) EPSILON ∧
      almost_equal (P.jump_to pos T).spring.end_ pos EPSILON := by
  have hdisc : 0 < P.spring.damping * P.spring.damping -
      4 * P.spring.mass * P.spring.spring_constant := by
    rw [hm, hk, hd]; norm_num
  have hm0 : P.spring.mass ≠ 0 := by rw [hm]; norm_num
  have hst : (P.jump_to pos T).spring_time = some 0 := rfl
  have hsp : (P.jump_to pos T).spring = (P.spring.snap (P.xAt T)).set pos (P.dxAt T) 0 := rfl
  have hcont := snap_set_zero P.spring (P.xAt T) pos (P.dxAt T) hdisc hm0
  refine ⟨hst, ?_, ?_, ?_, ?_⟩
  · intro t ht
    have hin : (P.jump_to pos T).in_spring t := by
      rw [Pager.in_spring, hst]
      exact ht
    exact ⟨by rw [Pager.xAt, if_pos hin], by rw [Pager.dxAt, if_pos hin]⟩
  · rw [hsp]; exact hcont.1
  · rw [hsp]; exact hcont.2.1
  · rw [hsp]; exact hcont.2.2

/-- Witness for C5 on a concrete pager. -/
theorem C5_witness :
    ((Pager.new [⟨0, false⟩, ⟨10, true⟩]).jump_to 5 1).spring_time = some 0 :=
  (C5_jump_to (Pager.new [⟨0, false⟩, ⟨10, true⟩]) 5 1 rfl rfl rfl).1

/-- If the logarithm argument of `time_for_position` is positive, the time it
computes does land the friction trajectory on `p`. -/
theorem Friction.xAt_solution (f : Friction) (p : ℝ) (hd : 0 < f.drag)
    (hl : f.ln_drag = Real.log f.drag) (hv : f.v ≠ 0) (hln : f.ln_drag ≠ 0)
    (harg : 0 < ((p - f.x) * f.ln_drag + f.v) / f.v) :
    f.xAt (Real.log (((p - f.x) * f.ln_drag + f.v) / f.v) / f.ln_drag) = p := by
  rw [Friction.xAt_exp f hd hl, mul_div_cancel₀ _ hln, Real.exp_log harg]
  field_simp
  ring

/-- Conversely, any time at which the trajectory is at `p` makes the
exponential equal the logarithm argument of `time_for_position`. -/
theorem Friction.exp_of_xAt (f : Friction) (hd : 0 < f.drag)
    (hl : f.ln_drag = Real.log f.drag) (hv : f.v ≠ 0) (hln : f.ln_drag ≠ 0)
    {t p : ℝ} (h : f.xAt t = p) :
    Real.exp (f.ln_drag * t) = ((p - f.x) * f.ln_drag + f.v) / f.v := by
  rw [Friction.xAt_exp f hd hl] at h
  rw [eq_div_iff hv]
  have h2 : f.v * Real.exp (f.ln_drag * t) / f.ln_drag - f.v / f.ln_drag = p - f.x := by
    linarith
  field_simp at h2
  linarith

/-- With zero velocity the friction trajectory never moves. -/
theorem Friction.xAt_zero_velocity (f : Friction) (hv : f.v = 0) (t : ℝ) :
    f.xAt t = f.x := by
  rw [Friction.xAt, hv]
  simp

/-- Claim C6: for a friction state with drag in `(0, 1)`:
`time_for_position(p)` returns `0` when `p` is within `f32::EPSILON` of the
origin; otherwise it returns a negative time when `p` is on the trajectory
only at a negative time, and NaN (`none`) when `p` is not on the trajectory
at any time; with zero initial velocity the simulation is done at `t = 0`,
`time_for_position(origin) = 0`, and every position away from the origin
gets NaN. -/
theorem C6_time_for_position (drag x0 v p : ℝ) (h0 : 0 < drag) (h1 : drag < 1) :
    (|p - x0| < f32Epsilon → ((Friction.new drag).set x0 v).time_for_position p = some 0) ∧
      (f32Epsilon ≤ |p - x0| →
        (∃ t, t < 0 ∧ ((Friction.new drag).set x0 v).xAt t = p) →
        ∃ tr, ((Friction.new drag).set x0 v).time_for_position p = some tr ∧ tr < 0) ∧
      (f32Epsilon ≤ |p - x0| →
        (∀ t, ((Friction.new drag).set x0 v).xAt t ≠ p) →
        ((Friction.new drag).set x0 v).time_for_position p = none) ∧
      (v = 0 → ((Friction.new drag).set x0 v).isDone 0 ∧
        ((Friction.new drag).set x0 v).time_for_position x0 = some 0 ∧
        (f32Epsilon ≤ |p - x0| →
          ((Friction.new drag).set x0 v).time_for_position p = none)) := by
  have hlneg : Real.log drag < 0 := Real.log_neg h0 h1
  have hln : Real.log drag ≠ 0 := ne_of_lt hlneg
  refine ⟨?_, ?_, ?_, ?_⟩
  · intro heps
    rw [Friction.time_for_position]
    simp only [Friction.set, Friction.new]
    rw [if_pos heps]
  · rintro heps ⟨t, htneg, hxt⟩
    have hv : v ≠ 0 := by
      intro hv0
      have hx0p : x0 = p :=
        (Friction.xAt_zero_velocity ⟨x0, v, drag, Real.log drag⟩ hv0 t).symm.trans hxt
      rw [← hx0p] at heps
      simp only [sub_self, abs_zero] at heps
      exact absurd heps (by norm_num [f32Epsilon])
    have hexp : Real.exp (Real.log drag * t) = ((p - x0) * Real.log drag + v) / v :=
      Friction.exp_of_xAt (⟨x0, v, drag, Real.log drag⟩ : Friction) h0 rfl hv hln hxt
    have harg : 0 < ((p - x0) * Real.log drag + v) / v := by
      rw [← hexp]
      exact Real.exp_pos _
    refine ⟨t, ?_, htneg⟩
    rw [Friction.time_for_position]
    simp only [Friction.set, Friction.new]
    rw [if_neg (not_lt.mpr heps)]
    rw [if_neg (by push_neg; exact ⟨hv, hln, harg⟩)]
    rw [← hexp, Real.log_exp, mul_div_cancel_left₀ _ hln]
  · intro heps hall
    rw [Friction.time_for_position]
    simp only [Friction.set, Friction.new]
    rw [if_neg (not_lt.mpr heps)]
    rcases eq_or_ne v 0 with hv | hv
    · rw [if_pos (Or.inl hv)]
    · rw [if_pos (Or.inr (Or.inr (by
        by_contra hc
        push_neg at hc
        exact hall _ (Friction.xAt_solution ⟨x0, v, drag, Real.log drag⟩ p h0 rfl hv hln hc))))]
  · intro hv0
    refine ⟨?_, ?_, ?_⟩
    · rw [Friction.isDone, Friction.dxAt]
      simp only [Friction.set, Friction.new]
      rw [hv0]
      simp
    · rw [Friction.time_for_position]
      simp only [Friction.set, Friction.new]
      rw [if_pos (by simp only [sub_self, abs_zero]; norm_num [f32Epsilon])]
    · intro heps
      rw [Friction.time_for_position]
      simp only [Friction.set, Friction.new]
      rw [if_neg (not_lt.mpr heps), if_pos (Or.inl hv0)]

/-- Witness for C6 at drag `1/2`, origin `0`, zero velocity, querying the
origin. -/
theorem C6_witness : ((Friction.new (1/2)).set 0 0).time_for_position 0 = some 0 :=
  (C6_time_for_position (1/2) 0 0 0 (by norm_num) (by norm_num)).1
    (by norm_num [f32Epsilon])

/-- One step of `Pager::query`'s scan preserves the two accumulator
invariants, extending the seen prefix by the scanned point. -/
theorem queryStep_inv (x : ℝ) (seen : List SnapPoint) (lt gt : Option SnapPoint)
    (s : SnapPoint) (hl : lowerInv x seen lt) (hg : upperInv x seen gt) :
    lowerInv x (seen ++ [s]) (queryStep x (lt, gt) s).1 ∧
      upperInv x (seen ++ [s]) (queryStep x (lt, gt) s).2 := by
  rw [queryStep]
  by_cases hs : s.value > x
  · rw [if_pos hs]
    constructor
    · rcases lt with - | a
      · show ∀ q ∈ seen ++ [s], x < q.value
        intro q hq
        rcases List.mem_append.mp hq with hq | hq
        · exact hl q hq
        · rw [List.mem_singleton.mp hq]
          exact hs
      · obtain ⟨hmem, hle, hmax⟩ := hl
        refine ⟨List.mem_append.mpr (Or.inl hmem), hle, fun q hq hqle => ?_⟩
        rcases List.mem_append.mp hq with hq | hq
        · exact hmax q hq hqle
        · rw [List.mem_singleton.mp hq] at hqle
          exact absurd hqle (not_le.mpr hs)
    · rcases gt with - | b
      · refine ⟨List.mem_append.mpr (Or.inr (List.mem_singleton.mpr rfl)), hs,
          fun q hq hqgt => ?_⟩
        rcases List.mem_append.mp hq with hq | hq
        · exact absurd hqgt (not_lt.mpr (hg q hq))
        · rw [List.mem_singleton.mp hq]
      · obtain ⟨hbmem, hbgt, hbmin⟩ := hg
        by_cases hb : b.value > s.value
        · dsimp only
          rw [if_pos hb]
          refine ⟨List.mem_append.mpr (Or.inr (List.mem_singleton.mpr rfl)), hs,
            fun q hq hqgt => ?_⟩
          rcases List.mem_append.mp hq with hq | hq
          · exact le_trans (le_of_lt hb) (hbmin q hq hqgt)
          · rw [List.mem_singleton.mp hq]
        · dsimp only
          rw [if_neg hb]
          refine ⟨List.mem_append.mpr (Or.inl hbmem), hbgt, fun q hq hqgt => ?_⟩
          rcases List.mem_append.mp hq with hq | hq
          · exact hbmin q hq hqgt
          · rw [List.mem_singleton.mp hq]
            exact not_lt.mp hb
  · rw [if_neg hs]
    have hsle : s.value ≤ x := not_lt.mp hs
    constructor
    · rcases lt with - | a
      · refine ⟨List.mem_append.mpr (Or.inr (List.mem_singleton.mpr rfl)), hsle,
          fun q hq hqle => ?_⟩
        rcases List.mem_append.mp hq with hq | hq
        · exact absurd hqle (not_le.mpr (hl q hq))
        · rw [List.mem_singleton.mp hq]
      · obtain ⟨hamem, hale, hamax⟩ := hl
        by_cases ha : s.value > a.value
        · dsimp only
          rw [if_pos ha]
          refine ⟨List.mem_append.mpr (Or.inr (List.mem_singleton.mpr rfl)), hsle,
            fun q hq hqle => ?_⟩
          rcases List.mem_append.mp hq with hq | hq
          · exact le_trans (hamax q hq hqle) (le_of_lt ha)
          · rw [List.mem_singleton.mp hq]
        · dsimp only
          rw [if_neg ha]
          refine ⟨List.mem_append.mpr (Or.inl hamem), hale, fun q hq hqle => ?_⟩
          rcases List.mem_append.mp hq with hq | hq
          · exact hamax q hq hqle
          · rw [List.mem_singleton.mp hq]
            exact not_lt.mp ha
    · rcases gt with - | b
      · show ∀ q ∈ seen ++ [s], q.value ≤ x
        intro q hq
        rcases List.mem_append.mp hq with hq | hq
        · exact hg q hq
        · rw [List.mem_singleton.mp hq]
          exact hsle
      · obtain ⟨hbmem, hbgt, hbmin⟩ := hg
        refine ⟨List.mem_append.mpr (Or.inl hbmem), hbgt, fun q hq hqgt => ?_⟩
        rcases List.mem_append.mp hq with hq | hq
        · exact hbmin q hq hqgt
        · rw [List.mem_singleton.mp hq] at hqgt
          exact absurd hqgt (not_lt.mpr hsle)

/-- The full scan of `Pager::query` establishes the accumulator invariants
over the whole list. -/
theorem foldl_queryStep_inv (x : ℝ) (l : List SnapPoint) :
    ∀ (seen : List SnapPoint) (lt gt : Option SnapPoint),
      lowerInv x seen lt → upperInv x seen gt →
      lowerInv x (seen ++ l) (l.foldl (queryStep x) (lt, gt)).1 ∧
        upperInv x (seen ++ l) (l.foldl (queryStep x) (lt, gt)).2 := by
  induction l with
  | nil =>
      intro seen lt gt hl hg
      simpa using ⟨hl, hg⟩
  | cons s rest ih =>
      intro seen lt gt hl hg
      have hstep := queryStep_inv x seen lt gt s hl hg
      have hres := ih (seen ++ [s]) (queryStep x (lt, gt) s).1 (queryStep x (lt, gt) s).2
        hstep.1 hstep.2
      rw [List.foldl_cons]
      simpa [List.append_assoc] using hres

/-- Claim C10: the snap points are sorted ascending by value at construction
and never modified by `set` or `jump_to`; whenever `query(y)` returns
`Between(l, g)`, both points belong to the point set, `l.value ≤ y < g.value`,
`l` has the largest point value `≤ y`, and `g` the smallest point value
`> y`. -/
theorem C10_snap_points_invariants :
    (∀ pts : List SnapPoint,
      List.Sorted (fun a b : SnapPoint => a.value ≤ b.value) (Pager.new pts).snap_points) ∧
      (∀ (P : Pager) (y w : ℝ), (P.set y w).snap_points = P.snap_points) ∧
      (∀ (P : Pager) (pos t : ℝ), (P.jump_to pos t).snap_points = P.snap_points) ∧
      (∀ (P : Pager) (y : ℝ) (l g : SnapPoint), P.query y = SnapQuery.Between l g →
        l ∈ P.snap_points ∧ g ∈ P.snap_points ∧ l.value ≤ y ∧ y < g.value ∧
          (∀ q ∈ P.snap_points, q.value ≤ y → q.value ≤ l.value) ∧
          (∀ q ∈ P.snap_points, y < q.value → g.value ≤ q.value)) := by
  refine ⟨?_, ?_, ?_, ?_⟩
  · intro pts
    exact List.sorted_insertionSort _ pts
  · intro P y w
    rw [Pager.set]
    dsimp only
    repeat' split
    all_goals rfl
  · intro P pos t
    rfl
  · intro P y l g hq
    rw [Pager.query] at hq
    have hinv := foldl_queryStep_inv y P.snap_points [] none none
      (by intro q hq'; simp at hq') (by intro q hq'; simp at hq')
    rcases hfold : P.snap_points.foldl (queryStep y) (none, none) with ⟨ltr, gtr⟩
    rw [hfold] at hq hinv
    simp only [List.nil_append] at hinv
    rcases ltr with - | a <;> rcases gtr with - | b
    · simp at hq
    · simp at hq
    · simp at hq
    · simp only [SnapQuery.Between.injEq] at hq
      obtain ⟨rfl, rfl⟩ := hq
      obtain ⟨⟨hamem, hale, hamax⟩, hbmem, hbgt, hbmin⟩ := hinv
      exact ⟨hamem, hbmem, hale, hbgt, hamax, hbmin⟩

/-- Witness for C10 on a concrete two-point pager queried between the
points. -/
theorem C10_witness :
    (⟨0, false⟩ : SnapPoint) ∈ (Pager.new [⟨0, false⟩, ⟨10, true⟩]).snap_points := by
  have hsp : (Pager.new [⟨0, false⟩, ⟨10, true⟩]).snap_points =
      [⟨0, false⟩, ⟨10, true⟩] := by
    show List.insertionSort (fun a b : SnapPoint => a.value ≤ b.value)
        [⟨0, false⟩, ⟨10, true⟩] = [⟨0, false⟩, ⟨10, true⟩]
    norm_num [List.insertionSort, List.orderedInsert]
  have hq : (Pager.new [⟨0, false⟩, ⟨10, true⟩]).query 5 =
      SnapQuery.Between ⟨0, false⟩ ⟨10, true⟩ := by
    rw [Pager.query, hsp]
    norm_num [queryStep]
  exact (C10_snap_points_invariants.2.2.2 (Pager.new [⟨0, false⟩, ⟨10, true⟩]) 5
    ⟨0, false⟩ ⟨10, true⟩ hq).1

end Gravitas
